import Mathlib

/-!
# Verification of the receipt-processor core (`server.go`)

A shallow embedding of the two core components of the Go service:
the point-scoring engine (`calculatePoints`) and the in-memory
receipt registry used by `processReceipt` / `getPoints`.

Strings are embedded as Lean `String` and manipulated through their
character lists; Go `int` is embedded as unbounded `Int` (no receipt
field in scope approaches 64-bit overflow, and `strconv.Atoi`'s
range-clamping on overflow is not modelled). The `float64` value
produced by `strconv.ParseFloat` in the description-length rule is
carried exactly, as an integer mantissa together with a count of
fractional digits, so `math.Ceil(price * 0.2)` becomes an exact
integer ceiling division; the bridge lemma `ceilDiv_eq_rat_ceil`
relates it to the ideal rational `⌈price / 5⌉`.
-/

namespace ReceiptProcessor

/-- `Item` from `server.go`: an individual product on a receipt.
Both fields are strings, exactly as in the Go struct. -/
structure Item where
  shortDescription : String
  price : String
  deriving DecidableEq, Repr

/-- `Receipt` from `server.go`. All scalar fields are strings, as in
the Go struct; `items` is the ordered list of items. -/
structure Receipt where
  retailer : String
  purchaseDate : String
  purchaseTime : String
  items : List Item
  total : String
  deriving DecidableEq, Repr

/-- Value of a list of decimal digit characters, most significant first,
as accumulated by Go's `strconv` scanners (`a = a*10 + digit`). -/
def digitsToNat (l : List Char) : Nat :=
  l.foldl (fun a c => a * 10 + (c.toNat - '0'.toNat)) 0

/-- `strconv.Atoi` on a rune list: optional single sign, then a
non-empty run of decimal digits; any other shape is an error, embedded
as `none`. (Range clamping at 64-bit overflow is not modelled:
integers here are unbounded.) -/
def atoi (cs : List Char) : Option Int :=
  match cs with
  | [] => none
  | c :: cs' =>
    let (sgn, digs) : Int × List Char :=
      if c = '-' then (-1, cs') else if c = '+' then (1, cs') else (1, c :: cs')
    if !digs.isEmpty && digs.all Char.isDigit then
      some (sgn * (digitsToNat digs : Int))
    else none

/-- A decimal number as scanned by `strconv.ParseFloat`: an integer
mantissa (all the digits, sign applied) and the count of fractional
digits. The numeric value is `mantissa / 10 ^ fracDigits`, made
explicit by `decimalVal`. -/
abbrev Decimal := Int × Nat

/-- The exact rational value of a scanned decimal. -/
def decimalVal (d : Decimal) : ℚ :=
  (d.1 : ℚ) / (10 : ℚ) ^ d.2

/-- Body of `strconv.ParseFloat` after the sign has been stripped,
restricted to plain decimal notation `digits[.digits]` (Go's scanner in
`readFloat`: a run of integer digits, at most one dot, a run of
fractional digits, and at least one digit overall). Exponent, hex and
Inf/NaN forms are not modelled; they never arise from receipt fields
in scope. The value is kept exact rather than rounded to binary. -/
def parseDecimalCore (cs : List Char) : Option Decimal :=
  let ip := cs.takeWhile Char.isDigit
  let rest := cs.dropWhile Char.isDigit
  match rest with
  | [] => if ip.isEmpty then none else some ((digitsToNat ip : Int), 0)
  | '.' :: rest2 =>
    let fp := rest2.takeWhile Char.isDigit
    let rest3 := rest2.dropWhile Char.isDigit
    if rest3.isEmpty && !(ip.isEmpty && fp.isEmpty) then
      some ((digitsToNat ip * 10 ^ fp.length + digitsToNat fp : Int), fp.length)
    else none
  | _ => none

/-- `strconv.ParseFloat` on receipt money strings: optional sign, then
a plain decimal number (see `parseDecimalCore`). Parse failure is
`none`; the Go call sites discard the error and use the zero value. -/
def parseDecimal (s : String) : Option Decimal :=
  match s.toList with
  | [] => none
  | c :: cs =>
    if c = '-' then (parseDecimalCore cs).map (fun d => (-d.1, d.2))
    else if c = '+' then parseDecimalCore cs
    else parseDecimalCore (c :: cs)

/-- Integer ceiling division `⌈a / b⌉` for a positive divisor,
written with the floor division `/` of `ℤ`; this is the exact value of
`math.Ceil` applied to the quotient (see `ceilDiv_eq_rat_ceil`). -/
def ceilDiv (a b : Int) : Int := -(-a / b)

/-- The character class of the regex `[a-zA-Z0-9]` used on the
retailer name. -/
def isAlnum (c : Char) : Bool :=
  ('a' ≤ c && c ≤ 'z') || ('A' ≤ c && c ≤ 'Z') || ('0' ≤ c && c ≤ '9')

/-- Go `unicode.IsSpace` restricted to the Latin-1 range
(`'\t'`, `'\n'`, `'\v'`, `'\f'`, `'\r'`, `' '`, U+0085, U+00A0); the
rarely-seen higher Unicode space classes are not modelled. -/
def isGoSpace (c : Char) : Bool :=
  c = ' ' || c = '\t' || c = '\n' || c = '\x0b' || c = '\x0c' || c = '\r' ||
  c = '\x85' || c = '\xa0'

/-- `strings.TrimSpace` on the rune sequence: drop leading and
trailing whitespace runes. -/
def trimSpace (cs : List Char) : List Char :=
  ((cs.dropWhile isGoSpace).reverse.dropWhile isGoSpace).reverse

/-- Go `len` on the string holding these runes: the number of UTF-8
bytes, not the number of characters. -/
def utf8Len (cs : List Char) : Nat :=
  (cs.map Char.utf8Size).sum

/-- `strings.ReplaceAll(s, ".", "")` at its call site in rule 3: the
pattern is the single byte `'.'` and the replacement is empty, so every
dot is deleted. -/
def removeDots (cs : List Char) : List Char :=
  cs.filter (fun c => !(c = '.'))

/-- `strings.Split(s, "-")` at its call site in rule 6: the separator
is the single byte `'-'`; splitting on it never drops a field, and an
input without the separator yields the one-element split. -/
def splitOnChar (sep : Char) : List Char → List (List Char)
  | [] => [[]]
  | c :: cs =>
    match splitOnChar sep cs with
    | [] => if c = sep then [[], []] else [[c]]
    | g :: gs => if c = sep then [] :: g :: gs else (c :: g) :: gs

/-- `strings.HasSuffix` on rune lists. -/
def hasSuffix (s suffix : List Char) : Bool :=
  List.isSuffixOf suffix s

/-- Rule 1: one point per alphanumeric character of the retailer name
(`regexp` match count in `calculatePoints`). -/
def retailerPoints (r : Receipt) : Int :=
  ((r.retailer.toList.filter isAlnum).length : Int)

/-- Rule 2: 50 points when the raw total string ends in `".00"`
(`strings.HasSuffix(receipt.Total, ".00")`). -/
def roundDollarPoints (r : Receipt) : Int :=
  if hasSuffix r.total.toList ['.', '0', '0'] then 50 else 0

/-- Rule 3: 25 points when the total in cents is divisible by 25.
The cents are obtained by deleting the dots from the total string and
running `strconv.Atoi`; the Go code discards the error, so a failed
parse leaves the zero value `0`, and `%` is Go's truncated remainder. -/
def quarterPoints (r : Receipt) : Int :=
  let totalInCents := (atoi (removeDots r.total.toList)).getD 0
  if totalInCents.tmod 25 = 0 then 25 else 0

/-- Rule 4: 5 points for every two items (`(len(items) / 2) * 5`). -/
def pairPoints (r : Receipt) : Int :=
  (((r.items.length / 2) * 5 : Nat) : Int)

/-- Rule 5, per item: when the trimmed description's byte length is a
multiple of 3, add `int(math.Ceil(price * 0.2))`, computed here as the
exact ceiling of a fifth of the scanned decimal; the price comes from
`strconv.ParseFloat` with the error discarded (zero value on failure). -/
def itemBonus (it : Item) : Int :=
  if utf8Len (trimSpace it.shortDescription.toList) % 3 = 0 then
    let d := (parseDecimal it.price).getD (0, 0)
    ceilDiv d.1 (5 * 10 ^ d.2)
  else 0

/-- Rule 5 summed over the item list. -/
def itemsDescPoints (r : Receipt) : Int :=
  (r.items.map itemBonus).sum

/-- Rule 6: 6 points when the day of the purchase date is odd.
`strings.Split(receipt.PurchaseDate, "-")` is indexed at `[2]`
unconditionally: when the split has fewer than three parts the Go
program panics, embedded as `none`. The day parse error, by contrast,
is checked (`err == nil`), so a malformed day just scores 0. -/
def dayPoints (r : Receipt) : Option Int :=
  match (splitOnChar '-' r.purchaseDate.toList).get? 2 with
  | none => none
  | some dayStr =>
    some (match atoi dayStr with
      | some day => if day.tmod 2 = 1 then 6 else 0
      | none => 0)

/-- `time.Parse("15:04", s)`: a 1- or 2-digit hour, a literal `':'`,
an exactly-2-digit minute, nothing else; hour below 24 and minute
below 60, else a range error. Returns the parsed (hour, minute). -/
def parseTimeHHMM (s : String) : Option (Nat × Nat) :=
  let cs := s.toList
  let hd := cs.takeWhile Char.isDigit
  let rest := cs.dropWhile Char.isDigit
  if hd.length = 0 ∨ 2 < hd.length then none
  else
    match rest with
    | ':' :: m1 :: m2 :: [] =>
      if m1.isDigit && m2.isDigit then
        let hour := digitsToNat hd
        let minute := digitsToNat [m1, m2]
        if hour ≤ 23 ∧ minute ≤ 59 then some (hour, minute) else none
      else none
    | _ => none

/-- Rule 7: 10 points when the purchase time parses and satisfies
`(hour == 14 && min > 0) || (hour == 15)`; a parse error is checked
(`err == nil`) and scores 0. -/
def timePoints (r : Receipt) : Int :=
  match parseTimeHHMM r.purchaseTime with
  | some (h, m) => if (h = 14 ∧ 0 < m) ∨ h = 15 then 10 else 0
  | none => 0

/-- `calculatePoints` from `server.go`: the sum of the seven rules.
The only partiality is the unchecked index `dateParts[2]` of rule 6,
so the result is `none` exactly when that access panics. -/
def calculatePoints (r : Receipt) : Option Int :=
  (dayPoints r).map (fun day =>
    retailerPoints r + roundDollarPoints r + quarterPoints r + pairPoints r +
      itemsDescPoints r + day + timePoints r)

/-! ## The receipt registry

`receiptStore` is a map from generated identifiers to receipts,
guarded by a mutex; each handler's critical section is a single map
write or read, so the registry is embedded as an explicit store value
threaded through the operations. `uuid.New().String()` is a fresh
identifier produced outside the store; it enters the model as an
argument of `processReceipt`. -/

/-- The registry state: the contents of `receiptStore`. Later
registrations sit at the front, and `lookupStore` returns the most
recent binding, matching the overwrite semantics of a Go map write. -/
abbrev Store := List (String × Receipt)

/-- `receiptStore[id]` (comma-ok read): the most recent binding of
`id`, or `none` when `id` was never registered. -/
def lookupStore (s : Store) (id : String) : Option Receipt :=
  match s with
  | [] => none
  | (k, v) :: rest => if k = id then some v else lookupStore rest id

/-- `processReceipt` after a successful JSON bind: store the receipt
under the freshly generated identifier and return that identifier
(the body of `{"id": ...}`) together with the new store. -/
def processReceipt (store : Store) (freshId : String) (r : Receipt) : String × Store :=
  (freshId, (freshId, r) :: store)

/-- Outcome of `getPoints`: a 404 (`notFound`), or the computed
points; the points carry the partiality of `calculatePoints`
(`none` = the scoring computation panics). -/
inductive GetPointsResult where
  | notFound
  | found (points : Option Int)
  deriving DecidableEq, Repr

/-- `getPoints`: look the identifier up under the lock; on a miss
answer 404, otherwise score the retrieved receipt. Both paths leave
the store as they found it. -/
def getPoints (store : Store) (id : String) : GetPointsResult × Store :=
  match lookupStore store id with
  | none => (GetPointsResult.notFound, store)
  | some r => (GetPointsResult.found (calculatePoints r), store)

/-! ## Data-model validity

Well-formedness predicates for receipt fields, modelled from the
spec's data model (§3): input validation happens in the excluded
decoding layer, so `server.go` contains no counterpart; these are
spec-side definitions used only as hypotheses. -/

/-- Modelled from the spec: `purchaseDate` is a calendar date in ISO
`YYYY-MM-DD` form — three dash-separated all-digit groups of widths
4, 2 and 2. -/
def validDate (s : String) : Bool :=
  match splitOnChar '-' s.toList with
  | [y, m, d] =>
    y.length == 4 && y.all Char.isDigit && m.length == 2 && m.all Char.isDigit &&
      d.length == 2 && d.all Char.isDigit
  | _ => false

/-- Modelled from the spec: `purchaseTime` is a 24-hour `HH:MM`
time — two digit pairs separated by `':'`, hour at most 23, minute at
most 59. -/
def validTime (s : String) : Bool :=
  match s.toList with
  | [h1, h2, ':', m1, m2] =>
    h1.isDigit && h2.isDigit && m1.isDigit && m2.isDigit &&
      decide (digitsToNat [h1, h2] ≤ 23) && decide (digitsToNat [m1, m2] ≤ 59)
  | _ => false

/-- Modelled from the spec: a monetary amount is a non-negative
decimal with exactly two fractional digits as printed — a non-empty
run of digits, a dot, and exactly two more digits. -/
def validMoney (s : String) : Bool :=
  let ip := s.toList.takeWhile Char.isDigit
  let rest := s.toList.dropWhile Char.isDigit
  !ip.isEmpty &&
    match rest with
    | ['.', t, u] => t.isDigit && u.isDigit
    | _ => false

/-! ## Concrete inputs used by witnesses and counterexamples -/

/-- The worked example of the spec's scenario A (and the repository
README, with its odd-day date): Target, one Pepsi item, 13:01. -/
def targetReceipt : Receipt :=
  ⟨"Target", "2022-01-01", "13:01", [⟨"Pepsi - 12-oz", "1.25"⟩], "1.25"⟩

/-- A receipt whose total is not parseable as a decimal number. -/
def badTotalReceipt : Receipt :=
  ⟨"Shop", "2022-01-01", "13:01", [⟨"Thing", "oops"⟩], "abc.00"⟩

/-- A receipt with the boundary total `"100.00"`. -/
def hundredReceipt : Receipt :=
  ⟨"Shop", "2022-01-01", "13:01", [], "100.00"⟩

/-- A receipt purchased at 15:30, inside the afternoon window. -/
def afternoonReceipt : Receipt :=
  ⟨"Shop", "2022-01-01", "15:30", [], "1.00"⟩

/-- An item whose description `"αa"` is 2 characters but 3 UTF-8
bytes (`'α'` is a two-byte rune). -/
def wideItem : Item := ⟨"αa", "5.00"⟩

end ReceiptProcessor

namespace ReceiptProcessor

/-! ## Bridge between integer ceiling division and the rational ceiling -/

/-- `ceilDiv a b` with a positive natural divisor is the ceiling of
the exact quotient, so rule 5's integer computation is
`int(math.Ceil(·))` of the ideal value. -/
theorem ceilDiv_eq_rat_ceil (a : ℤ) (b : ℕ) :
    ceilDiv a b = ⌈(a : ℚ) / (b : ℚ)⌉ := by
  have h2 := Rat.floor_intCast_div_natCast (-a) b
  have h1 : ((-a : ℤ) : ℚ) / ((b : ℕ) : ℚ) = -((a : ℚ) / (b : ℚ)) := by push_cast; ring
  rw [h1] at h2
  rw [ceilDiv, ← h2, ← Int.ceil_neg, neg_neg]

/-! ## Helper lemmas -/

/-- A successfully parsed purchase time has its hour below 24 and its
minute below 60. -/
theorem parseTimeHHMM_bounds (s : String) (h m : Nat)
    (hp : parseTimeHHMM s = some (h, m)) : h ≤ 23 ∧ m ≤ 59 := by
  simp only [parseTimeHHMM] at hp
  split at hp
  · exact absurd hp (by simp)
  · split at hp
    · split at hp
      · split at hp
        · simp only [Option.some.injEq, Prod.mk.injEq] at hp
          obtain ⟨rfl, rfl⟩ := hp
          assumption
        · exact absurd hp (by simp)
      · exact absurd hp (by simp)
    · exact absurd hp (by simp)

/-- A well-formed purchase date splits into three parts, so the
unchecked `dateParts[2]` access cannot panic and the score is defined. -/
theorem calculatePoints_isSome_of_validDate (r : Receipt)
    (hd : validDate r.purchaseDate = true) :
    ∃ n, calculatePoints r = some n := by
  unfold validDate at hd
  split at hd
  · next y mo d heq =>
    have heq' : splitOnChar '-' r.purchaseDate.data = [y, mo, d] := heq
    simp [calculatePoints, dayPoints, heq']
  · exact absurd hd (by simp)

/-- The mantissa produced by the decimal scanner is non-negative
(the sign is applied later, in `parseDecimal`). -/
theorem parseDecimalCore_nonneg (cs : List Char) (d : Decimal)
    (h : parseDecimalCore cs = some d) : 0 ≤ d.1 := by
  simp only [parseDecimalCore] at h
  split at h
  · split at h
    · exact absurd h (by simp)
    · simp only [Option.some.injEq] at h
      subst h
      dsimp only
      positivity
  · split at h
    · simp only [Option.some.injEq] at h
      subst h
      dsimp only
      positivity
    · exact absurd h (by simp)
  · exact absurd h (by simp)

/-- A money string of the data model starts with a digit, so no sign
is stripped and the scanned price is non-negative (a failed parse
degrades to the zero value, which is also non-negative). -/
theorem parseDecimal_getD_nonneg_of_validMoney (p : String) (hv : validMoney p = true) :
    0 ≤ ((parseDecimal p).getD (0, 0)).1 := by
  cases hcs : p.toList with
  | nil => rw [validMoney] at hv; rw [hcs] at hv; simp at hv
  | cons c cs =>
    rw [validMoney] at hv
    rw [hcs] at hv
    cases hdc : c.isDigit with
    | false =>
      rw [List.takeWhile_cons, if_neg (by simp [hdc])] at hv
      simp at hv
    | true =>
      have h1 : ¬(c = '-') := by
        intro he; rw [he] at hdc; exact absurd hdc (by decide)
      have h2 : ¬(c = '+') := by
        intro he; rw [he] at hdc; exact absurd hdc (by decide)
      rw [parseDecimal, hcs]
      dsimp only
      rw [if_neg h1, if_neg h2]
      cases hpc : parseDecimalCore (c :: cs) with
      | none => simp
      | some d => simpa using parseDecimalCore_nonneg _ _ hpc

/-- Ceiling division of a non-negative value by `5 * 10 ^ k` is
non-negative. -/
theorem ceilDiv_nonneg_mul_pow (a : ℤ) (k : ℕ) (ha : 0 ≤ a) :
    0 ≤ ceilDiv a (5 * 10 ^ k) := by
  have hcast : (5 * 10 ^ k : ℤ) = ((5 * 10 ^ k : ℕ) : ℤ) := by push_cast; ring
  rw [hcast, ceilDiv_eq_rat_ceil]
  apply Int.ceil_nonneg
  apply div_nonneg
  · exact_mod_cast ha
  · positivity

/-- Rule 5 never subtracts points on a data-model-valid price. -/
theorem itemBonus_nonneg (it : Item) (hv : validMoney it.price = true) :
    0 ≤ itemBonus it := by
  unfold itemBonus
  split
  · exact ceilDiv_nonneg_mul_pow _ _ (parseDecimal_getD_nonneg_of_validMoney it.price hv)
  · exact le_refl 0

/-- Rule 1 is a count, hence non-negative. -/
theorem retailerPoints_nonneg (r : Receipt) : 0 ≤ retailerPoints r :=
  Int.natCast_nonneg _

/-- Rule 2 contributes 0 or 50. -/
theorem roundDollarPoints_nonneg (r : Receipt) : 0 ≤ roundDollarPoints r := by
  unfold roundDollarPoints
  split <;> decide

/-- Rule 3 contributes 0 or 25. -/
theorem quarterPoints_nonneg (r : Receipt) : 0 ≤ quarterPoints r := by
  unfold quarterPoints
  dsimp only
  split <;> decide

/-- Rule 4 is a scaled count, hence non-negative. -/
theorem pairPoints_nonneg (r : Receipt) : 0 ≤ pairPoints r :=
  Int.natCast_nonneg _

/-- Rule 5 summed over valid prices is non-negative. -/
theorem itemsDescPoints_nonneg (r : Receipt)
    (hi : ∀ it ∈ r.items, validMoney it.price = true) :
    0 ≤ itemsDescPoints r := by
  unfold itemsDescPoints
  apply List.sum_nonneg
  intro x hx
  obtain ⟨it, hit, rfl⟩ := List.mem_map.mp hx
  exact itemBonus_nonneg it (hi it hit)

/-- Rule 6 contributes 0 or 6 whenever it is defined. -/
theorem dayPoints_nonneg (r : Receipt) (day : Int)
    (h : dayPoints r = some day) : 0 ≤ day := by
  simp only [dayPoints] at h
  split at h
  · exact absurd h (by simp)
  · simp only [Option.some.injEq] at h
    subst h
    split
    · split <;> decide
    · decide

/-- Rule 7 contributes 0 or 10. -/
theorem timePoints_nonneg (r : Receipt) : 0 ≤ timePoints r := by
  unfold timePoints
  split
  · split <;> decide
  · decide

/-! ## The claims -/

/-- C1, counterexample: the receipt with total `"abc.00"` has a total
that is not parseable as a decimal number, yet the round-dollar rule
contributes 50 (the raw string ends in `".00"`) and the
quarter-multiple rule contributes 25 (the ignored `Atoi` error leaves
0 cents, and 0 is divisible by 25) — neither rule contributes the
zero points the claim requires. -/
theorem claim1_counterexample :
    parseDecimal badTotalReceipt.total = none ∧
    roundDollarPoints badTotalReceipt = 50 ∧
    quarterPoints badTotalReceipt = 25 := by
  decide

/-- C1, amended: on a receipt with a well-formed purchase date the
score computation always completes; an unparseable item price
contributes zero to the description-length bonus; but the total-based
rules do not degrade to zero: a total whose dot-stripped form fails
`Atoi` makes the quarter-multiple rule contribute 25, and the
round-dollar rule contributes 50 for any total ending in `".00"`. -/
theorem claim1_degradation (r : Receipt)
    (hd : validDate r.purchaseDate = true)
    (ht : atoi (removeDots r.total.toList) = none) :
    quarterPoints r = 25 ∧
    (∀ it ∈ r.items, parseDecimal it.price = none → itemBonus it = 0) ∧
    ∃ n, calculatePoints r = some n := by
  refine ⟨?_, ?_, calculatePoints_isSome_of_validDate r hd⟩
  · simp only [quarterPoints, ht]
    decide
  · intro it _ hp
    simp only [itemBonus, hp]
    split
    · decide
    · rfl

/-- C1, witness: the amended statement at the concrete receipt with
total `"abc.00"` and item price `"oops"`. -/
theorem claim1_witness :
    quarterPoints badTotalReceipt = 25 ∧
    (∀ it ∈ badTotalReceipt.items, parseDecimal it.price = none → itemBonus it = 0) ∧
    ∃ n, calculatePoints badTotalReceipt = some n :=
  claim1_degradation badTotalReceipt (by decide) (by decide)

/-- C2, counterexample: on the total `"100.00"` the two rules
contribute 50 and 25, whose combined contribution is 75, not the 100
the claim states. -/
theorem claim2_counterexample :
    roundDollarPoints hundredReceipt = 50 ∧
    quarterPoints hundredReceipt = 25 ∧
    roundDollarPoints hundredReceipt + quarterPoints hundredReceipt ≠ 100 := by
  decide

/-- C2, amended: for every receipt whose total is the string
`"100.00"`, the round-dollar rule contributes 50 and the
quarter-multiple rule contributes 25 on the same call, a combined 75
points from these two rules. -/
theorem claim2_both_rules_75 (r : Receipt) (h : r.total = "100.00") :
    roundDollarPoints r = 50 ∧ quarterPoints r = 25 ∧
    roundDollarPoints r + quarterPoints r = 75 := by
  simp only [roundDollarPoints, quarterPoints, h]
  decide

/-- C2, witness: the amended statement at a concrete receipt with
total `"100.00"`. -/
theorem claim2_witness :
    roundDollarPoints hundredReceipt = 50 ∧ quarterPoints hundredReceipt = 25 ∧
    roundDollarPoints hundredReceipt + quarterPoints hundredReceipt = 75 :=
  claim2_both_rules_75 hundredReceipt rfl

/-- C3: on any receipt whose purchase time parses as `HH:MM`, the
10-point afternoon bonus is awarded exactly when the time lies in the
open interval between 14:00 and 16:00 — 14:00 itself gets nothing,
14:01 through 15:59 get it, 16:00 and later get nothing. -/
theorem claim3_afternoon_window (r : Receipt) (h m : Nat)
    (hp : parseTimeHHMM r.purchaseTime = some (h, m)) :
    timePoints r = 10 ↔ (14 * 60 < h * 60 + m ∧ h * 60 + m < 16 * 60) := by
  obtain ⟨hh, hm⟩ := parseTimeHHMM_bounds _ _ _ hp
  simp only [timePoints, hp]
  split
  · next hc => exact iff_of_true rfl (by omega)
  · next hc => exact iff_of_false (by decide) (by omega)

/-- C3, witness: 15:30 is inside the window, so the bonus fires. -/
theorem claim3_witness : timePoints afternoonReceipt = 10 :=
  (claim3_afternoon_window afternoonReceipt 15 30 (by decide)).mpr (by decide)

/-- C4, counterexample: the description `"αa"` trims to 2 characters,
not a multiple of 3, yet its byte length is 3 and the rule awards
`ceil(5.00 * 0.2) = 1` point — the bonus does not track character
length. -/
theorem claim4_counterexample :
    (trimSpace wideItem.shortDescription.toList).length % 3 ≠ 0 ∧
    itemBonus wideItem = 1 := by
  decide

/-- C4, amended: for every item whose price parses as a decimal, the
rule adds `ceil(price * 0.2)` points exactly when the trimmed
description's UTF-8 byte length (Go `len`) is a multiple of 3, zero
length included; for ASCII descriptions this is the character length,
so trimmed lengths 0, 3, 6 qualify and 1, 2, 4, 5 do not. -/
theorem claim4_desc_bonus (it : Item) (d : Decimal)
    (hp : parseDecimal it.price = some d) :
    (utf8Len (trimSpace it.shortDescription.toList) % 3 = 0 →
      itemBonus it = ⌈decimalVal d / 5⌉) ∧
    (utf8Len (trimSpace it.shortDescription.toList) % 3 ≠ 0 →
      itemBonus it = 0) := by
  constructor
  · intro hlen
    simp only [itemBonus, hp, Option.getD_some]
    rw [if_pos hlen]
    have hcast : (5 * 10 ^ d.2 : ℤ) = ((5 * 10 ^ d.2 : ℕ) : ℤ) := by push_cast; ring
    rw [hcast, ceilDiv_eq_rat_ceil, decimalVal, div_div]
    congr 1
    push_cast
    ring
  · intro hlen
    simp only [itemBonus, hp]
    rw [if_neg hlen]

/-- C4, witness: a 3-byte ASCII description with price `"1.25"` earns
`⌈1.25/5⌉ = 1` point. -/
theorem claim4_witness :
    itemBonus ⟨"abc", "1.25"⟩ = ⌈decimalVal (125, 2) / 5⌉ :=
  (claim4_desc_bonus ⟨"abc", "1.25"⟩ (125, 2) (by decide)).1 (by decide)

/-- C5: the spec's scenario A receipt (Target, 2022-01-01, 13:01, one
Pepsi item, total 1.25) scores exactly 37 = 6 retailer points + 25
quarter-multiple points + 6 odd-day points, every other rule
contributing zero. -/
theorem claim5_scenario_a :
    retailerPoints targetReceipt = 6 ∧
    roundDollarPoints targetReceipt = 0 ∧
    quarterPoints targetReceipt = 25 ∧
    pairPoints targetReceipt = 0 ∧
    itemsDescPoints targetReceipt = 0 ∧
    dayPoints targetReceipt = some 6 ∧
    timePoints targetReceipt = 0 ∧
    calculatePoints targetReceipt = some 37 := by
  decide

/-- C6: on a receipt whose date, time, total and item prices are all
well-formed per the data model, the score computation completes and
returns an integer — in particular the `dateParts[2]` access of the
odd-day rule, the one potential panic, is defined. -/
theorem claim6_total_on_valid (r : Receipt)
    (hd : validDate r.purchaseDate = true)
    (_ht : validTime r.purchaseTime = true)
    (_hm : validMoney r.total = true)
    (_hi : ∀ it ∈ r.items, validMoney it.price = true) :
    ∃ n, calculatePoints r = some n :=
  calculatePoints_isSome_of_validDate r hd

/-- C6, witness: the scenario A receipt is valid and its score is
defined. -/
theorem claim6_witness : ∃ n, calculatePoints targetReceipt = some n :=
  claim6_total_on_valid targetReceipt (by decide) (by decide) (by decide) (by decide)

/-- C7: whenever the total and all item prices are valid money
strings and the score computation returns a value, that value is a
non-negative integer. -/
theorem claim7_score_nonneg (r : Receipt)
    (_hm : validMoney r.total = true)
    (hi : ∀ it ∈ r.items, validMoney it.price = true)
    (n : Int) (hn : calculatePoints r = some n) : 0 ≤ n := by
  unfold calculatePoints at hn
  cases hday : dayPoints r with
  | none => rw [hday] at hn; exact absurd hn (by simp)
  | some day =>
    rw [hday] at hn
    simp only [Option.map_some', Option.some.injEq] at hn
    subst hn
    have h1 := retailerPoints_nonneg r
    have h2 := roundDollarPoints_nonneg r
    have h3 := quarterPoints_nonneg r
    have h4 := pairPoints_nonneg r
    have h5 := itemsDescPoints_nonneg r hi
    have h6 := dayPoints_nonneg r day hday
    have h7 := timePoints_nonneg r
    omega

/-- C7, witness: the scenario A receipt's score, 37, is non-negative. -/
theorem claim7_witness : (0 : Int) ≤ 37 :=
  claim7_score_nonneg targetReceipt (by decide) (by decide) 37 (by decide)

/-- C8: after registering a receipt on any prior store, looking up
the identifier the registration returned yields exactly the
registered receipt — never `none`, never another value. -/
theorem claim8_register_lookup_roundtrip (s : Store) (freshId : String) (r : Receipt) :
    lookupStore (processReceipt s freshId r).2 (processReceipt s freshId r).1 = some r := by
  simp [processReceipt, lookupStore]

/-- C9: a `getPoints` on an identifier absent from the store answers
`notFound` and returns the store unchanged, hence every repetition of
the call gives the same answer. -/
theorem claim9_lookup_missing (s : Store) (id : String)
    (h : lookupStore s id = none) :
    getPoints s id = (GetPointsResult.notFound, s) := by
  simp [getPoints, h]

/-- C9, witness: the empty store holds no identifier. -/
theorem claim9_witness :
    getPoints ([] : Store) "missing" = (GetPointsResult.notFound, ([] : Store)) :=
  claim9_lookup_missing [] "missing" rfl

/-- C10: a registration changes the store only at the freshly
generated identifier — every other identifier keeps its previous
binding (or absence) — and a `getPoints` lookup never changes the
store at all. -/
theorem claim10_frame (s : Store) (freshId other : String) (r : Receipt)
    (h : other ≠ freshId) :
    lookupStore (processReceipt s freshId r).2 other = lookupStore s other ∧
    ∀ (s2 : Store) (id : String), (getPoints s2 id).2 = s2 := by
  constructor
  · simp [processReceipt, lookupStore, if_neg (Ne.symm h)]
  · intro s2 id
    unfold getPoints
    split <;> rfl

/-- C10, witness: the frame property at concrete identifiers `"a"`
and `"b"` over the empty store. -/
theorem claim10_witness :
    lookupStore (processReceipt ([] : Store) "a" targetReceipt).2 "b" =
      lookupStore ([] : Store) "b" ∧
    ∀ (s2 : Store) (id : String), (getPoints s2 id).2 = s2 :=
  claim10_frame [] "a" "b" targetReceipt (by decide)

end ReceiptProcessor
